import Mathlib

/-!
Shallow embedding of the flappy-helicopter game core, translated from
`src/hooks/useGameState.ts` (game state machine and score bookkeeping),
`src/components/Frame.tsx` (helicopter physics `updateHelicopter`, the
per-frame `useGameLoop` callback, and the numeric constants), and
`src/hooks/useGameLoop.ts` (the requestAnimationFrame delta computation).
JavaScript numbers are modelled as rationals (`ℚ`) for continuous
quantities and naturals (`ℕ`) for the integer scores.
-/

namespace FlapShift

/-- Constant `BACKGROUND_SCROLL_SPEED` from the top of `Frame.tsx`. -/
def BACKGROUND_SCROLL_SPEED : ℚ := 50

/-- Constant `GROUND_HEIGHT` from the top of `Frame.tsx`. -/
def GROUND_HEIGHT : ℚ := 50

/-- Constant `GRAVITY` from the top of `Frame.tsx`. -/
def GRAVITY : ℚ := 600

/-- Constant `THRUST` from the top of `Frame.tsx` (negative: canvas y grows
downward). -/
def THRUST : ℚ := -400

/-- Constant `MAX_VELOCITY` (the terminal velocity) from `Frame.tsx`. -/
def MAX_VELOCITY : ℚ := 400

/-- Constant `HELICOPTER_WIDTH` from `Frame.tsx`. -/
def HELICOPTER_WIDTH : ℚ := 60

/-- Constant `HELICOPTER_HEIGHT` from `Frame.tsx`. -/
def HELICOPTER_HEIGHT : ℚ := 30

/-- `GameStatus` from `useGameState.ts`. -/
inductive GameStatus where
  | START
  | PLAYING
  | GAME_OVER
  deriving DecidableEq, Repr

open GameStatus

/-- The state held by `useGameState` (status, score, bestScore, lastScore,
hasPlayedBefore). -/
structure GameState where
  status : GameStatus
  score : ℕ
  bestScore : ℕ
  lastScore : ℕ
  hasPlayedBefore : Bool
  deriving DecidableEq, Repr

/-- `startGame` from `useGameState.ts`: set status PLAYING, score 0,
hasPlayedBefore true. -/
def startGame (s : GameState) : GameState :=
  { s with status := PLAYING, score := 0, hasPlayedBefore := true }

/-- `endGame` from `useGameState.ts`: set status GAME_OVER, lastScore := score,
and bestScore := score when score > bestScore. -/
def endGame (s : GameState) : GameState :=
  { s with
    status := GAME_OVER
    lastScore := s.score
    bestScore := if s.score > s.bestScore then s.score else s.bestScore }

/-- `restartGame` from `useGameState.ts`: back to the START screen. -/
def restartGame (s : GameState) : GameState :=
  { s with status := START }

/-- `incrementScore` from `useGameState.ts`. -/
def incrementScore (s : GameState) : GameState :=
  { s with score := s.score + 1 }

/-- The simulation state touched by `updateHelicopter` in `Frame.tsx`:
the game state plus the helicopter's vertical position and velocity. -/
structure Sim where
  game : GameState
  heliY : ℚ
  heliVel : ℚ
  deriving DecidableEq, Repr

/-- The `newVelocity` computation of `updateHelicopter`:
velocity plus (THRUST or GRAVITY) times delta, clamped to
`[-MAX_VELOCITY, MAX_VELOCITY]` via `Math.max(Math.min(·, MAX), -MAX)`. -/
def heliNewVelocity (isThrusting : Bool) (deltaTime v : ℚ) : ℚ :=
  max (min (v + (if isThrusting then THRUST else GRAVITY) * deltaTime) MAX_VELOCITY)
    (-MAX_VELOCITY)

/-- The `newY` computation of `updateHelicopter`: position plus the new
(clamped) velocity times delta. -/
def heliNewY (isThrusting : Bool) (deltaTime y v : ℚ) : ℚ :=
  y + heliNewVelocity isThrusting deltaTime v * deltaTime

/-- The ground line `height - GROUND_HEIGHT - HELICOPTER_HEIGHT / 2` of
`updateHelicopter`. -/
def groundLine (height : ℚ) : ℚ :=
  height - GROUND_HEIGHT - HELICOPTER_HEIGHT / 2

/-- The ceiling line `HELICOPTER_HEIGHT / 2` of `updateHelicopter`. -/
def ceilingLine : ℚ :=
  HELICOPTER_HEIGHT / 2

/-- `updateHelicopter` from `Frame.tsx`: no-op unless PLAYING; otherwise
compute the clamped new velocity and new y; if newY is below the ground line
call `endGame` and return (position and velocity not committed); if newY is
above the ceiling clamp y to the ceiling and zero the velocity; otherwise
commit newY and newVelocity. -/
def updateHelicopter (height : ℚ) (isThrusting : Bool) (deltaTime : ℚ)
    (s : Sim) : Sim :=
  if s.game.status ≠ PLAYING then s
  else
    let newVelocity := heliNewVelocity isThrusting deltaTime s.heliVel
    let newY := heliNewY isThrusting deltaTime s.heliY s.heliVel
    if newY > groundLine height then
      { s with game := endGame s.game }
    else if newY < ceilingLine then
      { s with heliY := ceilingLine, heliVel := 0 }
    else
      { s with heliY := newY, heliVel := newVelocity }

/-- The per-frame state touched by the `useGameLoop` callback in `Frame.tsx`:
the simulation state plus the background scroll position. -/
structure TickState where
  sim : Sim
  bgScrollX : ℚ
  deriving DecidableEq, Repr

/-- The `useGameLoop` callback of `Frame.tsx`: while PLAYING, advance the
background scroll by `BACKGROUND_SCROLL_SPEED * deltaTime` and run
`updateHelicopter`; on the START screen scroll at a fifth of the speed;
otherwise (GAME_OVER) only render. -/
def gameTick (height : ℚ) (isThrusting : Bool) (deltaTime : ℚ)
    (t : TickState) : TickState :=
  if t.sim.game.status = PLAYING then
    { sim := updateHelicopter height isThrusting deltaTime t.sim
      bgScrollX := t.bgScrollX + BACKGROUND_SCROLL_SPEED * deltaTime }
  else if t.sim.game.status = START then
    { t with bgScrollX := t.bgScrollX + BACKGROUND_SCROLL_SPEED * (2/10) * deltaTime }
  else t

/-- The delta computed by `animate` in `useGameLoop.ts`:
`time - previousTimeRef.current`, passed to the callback as is. -/
def animateDelta (previousTime time : ℚ) : ℚ :=
  time - previousTime

/-- A sequence of integration steps: fold `updateHelicopter` over a list of
(thrust, delta) inputs, as the game loop does one frame at a time. -/
def runSteps (height : ℚ) (inputs : List (Bool × ℚ)) (s : Sim) : Sim :=
  inputs.foldl (fun st p => updateHelicopter height p.1 p.2 st) s

/-- A run with a constant thrust input over a list of deltas. -/
def runConst (height : ℚ) (isThrusting : Bool) (ds : List ℚ) (s : Sim) : Sim :=
  ds.foldl (fun st d => updateHelicopter height isThrusting d st) s

/-- A step that stays inside the vertical band commits the interior branch:
the computed new y hits neither the ground check nor the ceiling check. -/
def interiorStep (height : ℚ) (thr : Bool) (dt : ℚ) (s : Sim) : Prop :=
  heliNewY thr dt s.heliY s.heliVel ≤ groundLine height ∧
    ceilingLine ≤ heliNewY thr dt s.heliY s.heliVel

/-- Every step of the run takes the interior branch. -/
def interiorRun (height : ℚ) (thr : Bool) : List ℚ → Sim → Prop
  | [], _ => True
  | d :: ds, s =>
      interiorStep height thr d s ∧
        interiorRun height thr ds (updateHelicopter height thr d s)

/-- Unfolding helper: `gameTick` never changes the score, in any branch. -/
lemma gameTick_score_eq (height : ℚ) (thr : Bool) (dt : ℚ) (t : TickState) :
    (gameTick height thr dt t).sim.game.score = t.sim.game.score := by
  unfold gameTick updateHelicopter endGame
  split_ifs <;> try rfl
  all_goals dsimp only
  all_goals split_ifs <;> rfl

/-- The clamp in `heliNewVelocity` always lands in
`[-MAX_VELOCITY, MAX_VELOCITY]`. -/
lemma clamp_bounds (thr : Bool) (dt v : ℚ) :
    -MAX_VELOCITY ≤ heliNewVelocity thr dt v ∧ heliNewVelocity thr dt v ≤ MAX_VELOCITY :=
  ⟨le_max_right _ _, max_le (min_le_right _ _) (by norm_num [MAX_VELOCITY])⟩

/-- `updateHelicopter` is the identity when not PLAYING. -/
lemma update_not_playing (height : ℚ) (thr : Bool) (dt : ℚ) (s : Sim)
    (h : s.game.status ≠ PLAYING) : updateHelicopter height thr dt s = s := by
  unfold updateHelicopter
  rw [if_pos h]

/-- Branch equation for a ground-crossing step. -/
lemma update_ground (height : ℚ) (thr : Bool) (dt : ℚ) (s : Sim)
    (hst : s.game.status = PLAYING)
    (hg : heliNewY thr dt s.heliY s.heliVel > groundLine height) :
    updateHelicopter height thr dt s = { s with game := endGame s.game } := by
  unfold updateHelicopter
  rw [if_neg (by simp [hst])]
  dsimp only
  rw [if_pos hg]

/-- Branch equation for a ceiling-crossing step. -/
lemma update_ceiling (height : ℚ) (thr : Bool) (dt : ℚ) (s : Sim)
    (hst : s.game.status = PLAYING)
    (hg : ¬ heliNewY thr dt s.heliY s.heliVel > groundLine height)
    (hc : heliNewY thr dt s.heliY s.heliVel < ceilingLine) :
    updateHelicopter height thr dt s = { s with heliY := ceilingLine, heliVel := 0 } := by
  unfold updateHelicopter
  rw [if_neg (by simp [hst])]
  dsimp only
  rw [if_neg hg, if_pos hc]

/-- Branch equation for an interior step. -/
lemma update_interior (height : ℚ) (thr : Bool) (dt : ℚ) (s : Sim)
    (hst : s.game.status = PLAYING)
    (hg : ¬ heliNewY thr dt s.heliY s.heliVel > groundLine height)
    (hc : ¬ heliNewY thr dt s.heliY s.heliVel < ceilingLine) :
    updateHelicopter height thr dt s =
      { s with heliY := heliNewY thr dt s.heliY s.heliVel
               heliVel := heliNewVelocity thr dt s.heliVel } := by
  unfold updateHelicopter
  rw [if_neg (by simp [hst])]
  dsimp only
  rw [if_neg hg, if_neg hc]

/-- One step of `updateHelicopter` keeps a velocity that is already within
`[-MAX_VELOCITY, MAX_VELOCITY]` within that interval. -/
lemma step_vel_bounds (height : ℚ) (thr : Bool) (dt : ℚ) (s : Sim)
    (h1 : -MAX_VELOCITY ≤ s.heliVel) (h2 : s.heliVel ≤ MAX_VELOCITY) :
    -MAX_VELOCITY ≤ (updateHelicopter height thr dt s).heliVel ∧
      (updateHelicopter height thr dt s).heliVel ≤ MAX_VELOCITY := by
  by_cases hst : s.game.status = PLAYING
  · by_cases hg : heliNewY thr dt s.heliY s.heliVel > groundLine height
    · rw [update_ground height thr dt s hst hg]
      exact ⟨h1, h2⟩
    · by_cases hc : heliNewY thr dt s.heliY s.heliVel < ceilingLine
      · rw [update_ceiling height thr dt s hst hg hc]
        norm_num [MAX_VELOCITY]
      · rw [update_interior height thr dt s hst hg hc]
        exact clamp_bounds thr dt s.heliVel
  · rw [update_not_playing height thr dt s hst]
    exact ⟨h1, h2⟩

/-- With thrust held the clamped new velocity is strictly below the clamped
new velocity with thrust released, whenever the held velocity does not exceed
the terminal velocity and the released velocity is at least its negative. -/
lemma clamp_strict (dt : ℚ) (hd : 0 < dt) (vt vr : ℚ) (hle : vt ≤ vr)
    (hvt : vt ≤ MAX_VELOCITY) (hvr : -MAX_VELOCITY ≤ vr) :
    heliNewVelocity true dt vt < heliNewVelocity false dt vr := by
  have ha : vt + THRUST * dt < MAX_VELOCITY := by
    unfold THRUST MAX_VELOCITY at *
    nlinarith
  have hb : -MAX_VELOCITY < vr + GRAVITY * dt := by
    unfold GRAVITY MAX_VELOCITY at *
    nlinarith
  have hab : vt + THRUST * dt < vr + GRAVITY * dt := by
    unfold THRUST GRAVITY
    nlinarith
  have hmm : (-MAX_VELOCITY : ℚ) < MAX_VELOCITY := by norm_num [MAX_VELOCITY]
  unfold heliNewVelocity
  simp only [if_true, Bool.false_eq_true, if_false]
  rw [min_eq_left ha.le, max_eq_left (le_min hb.le hmm.le)]
  exact max_lt (lt_min hab ha) (lt_min hb hmm)

/-- Interior runs preserve the strict ordering of velocity and height between
a thrust-held run and a thrust-released run. -/
lemma runConst_strict_aux (height : ℚ) (ds : List ℚ) :
    ∀ st sr : Sim, (∀ d ∈ ds, 0 < d) →
      st.game.status = PLAYING → sr.game.status = PLAYING →
      st.heliVel < sr.heliVel → st.heliY < sr.heliY →
      st.heliVel ≤ MAX_VELOCITY → -MAX_VELOCITY ≤ sr.heliVel →
      interiorRun height true ds st → interiorRun height false ds sr →
      (runConst height true ds st).heliY < (runConst height false ds sr).heliY := by
  induction ds with
  | nil =>
      intro st sr _ _ _ _ hy _ _ _ _
      exact hy
  | cons d ds ih =>
      intro st sr hpos hstt hstr hv hy hb2 hb3 hit hir
      obtain ⟨hit1, hits⟩ := hit
      obtain ⟨hir1, hirs⟩ := hir
      have hd : 0 < d := hpos d (List.mem_cons_self _ _)
      have hgt : ¬ heliNewY true d st.heliY st.heliVel > groundLine height :=
        not_lt.mpr hit1.1
      have hct : ¬ heliNewY true d st.heliY st.heliVel < ceilingLine :=
        not_lt.mpr hit1.2
      have hgr : ¬ heliNewY false d sr.heliY sr.heliVel > groundLine height :=
        not_lt.mpr hir1.1
      have hcr : ¬ heliNewY false d sr.heliY sr.heliVel < ceilingLine :=
        not_lt.mpr hir1.2
      have et := update_interior height true d st hstt hgt hct
      have er := update_interior height false d sr hstr hgr hcr
      have hv' : heliNewVelocity true d st.heliVel < heliNewVelocity false d sr.heliVel :=
        clamp_strict d hd _ _ hv.le hb2 hb3
      have hy' : heliNewY true d st.heliY st.heliVel <
          heliNewY false d sr.heliY sr.heliVel := by
        have hm := mul_lt_mul_of_pos_right hv' hd
        unfold heliNewY
        linarith
      exact ih (updateHelicopter height true d st) (updateHelicopter height false d sr)
        (fun q hq => hpos q (List.mem_cons_of_mem _ hq))
        (by rw [et]; exact hstt) (by rw [er]; exact hstr)
        (by rw [et, er]; exact hv') (by rw [et, er]; exact hy')
        (by rw [et]; exact (clamp_bounds true d st.heliVel).2)
        (by rw [er]; exact (clamp_bounds false d sr.heliVel).1)
        hits hirs

/-- C1: `endGame` performs the PLAYING→GAME_OVER transition, setting
lastScore to the score at the moment of the crash and bestScore to
`max(bestScore_before, score)`, for every prior bestScore and every score. -/
theorem endGame_sets_lastScore_and_bestScore_max (s : GameState) :
    (endGame s).status = GAME_OVER ∧ (endGame s).lastScore = s.score ∧
      (endGame s).bestScore = max s.bestScore s.score := by
  refine ⟨rfl, rfl, ?_⟩
  unfold endGame
  dsimp only
  split <;> omega

/-- C2 (counterexample): for an unrestricted initial velocity the claim
fails: starting from velocity 1000 near the ground, one integration step with
delta 1 crashes into the ground, which leaves the stored velocity at 1000,
outside `[-MAX_VELOCITY, MAX_VELOCITY]`. -/
theorem velocity_bound_fails_for_large_initial_velocity :
    MAX_VELOCITY <
      (runSteps 800 [(false, 1)] ⟨⟨PLAYING, 0, 0, 0, false⟩, 700, 1000⟩).heliVel := by
  norm_num [runSteps, updateHelicopter, heliNewVelocity, heliNewY, groundLine,
    ceilingLine, endGame, GRAVITY, THRUST, MAX_VELOCITY, GROUND_HEIGHT,
    HELICOPTER_HEIGHT]

/-- C2 (amended): for every initial velocity within
`[-MAX_VELOCITY, MAX_VELOCITY]` and every sequence of integration steps with
positive deltas and any mix of thrust inputs, the velocity after each step
stays within `[-MAX_VELOCITY, MAX_VELOCITY]`. -/
theorem velocity_bounded_of_initial_bounded (height : ℚ) (inputs : List (Bool × ℚ))
    (s : Sim) (h1 : -MAX_VELOCITY ≤ s.heliVel) (h2 : s.heliVel ≤ MAX_VELOCITY)
    (hpos : ∀ p ∈ inputs, 0 < p.2) :
    -MAX_VELOCITY ≤ (runSteps height inputs s).heliVel ∧
      (runSteps height inputs s).heliVel ≤ MAX_VELOCITY := by
  induction inputs generalizing s with
  | nil => exact ⟨h1, h2⟩
  | cons p ps ih =>
      simp only [runSteps, List.foldl_cons] at *
      have hb := step_vel_bounds height p.1 p.2 s h1 h2
      exact ih _ hb.1 hb.2 (fun q hq => hpos q (List.mem_cons_of_mem _ hq))

/-- Witness for the amended C2 theorem at a concrete two-step run. -/
theorem velocity_bounded_of_initial_bounded_witness :
    -MAX_VELOCITY ≤ (runSteps 800 [(true, 1), (false, 1/2)]
        ⟨⟨PLAYING, 0, 0, 0, false⟩, 400, 0⟩).heliVel ∧
      (runSteps 800 [(true, 1), (false, 1/2)]
        ⟨⟨PLAYING, 0, 0, 0, false⟩, 400, 0⟩).heliVel ≤ MAX_VELOCITY :=
  velocity_bounded_of_initial_bounded 800 [(true, 1), (false, 1/2)]
    ⟨⟨PLAYING, 0, 0, 0, false⟩, 400, 0⟩ (by norm_num [MAX_VELOCITY])
    (by norm_num [MAX_VELOCITY]) (by norm_num)

/-- C3: while PLAYING, for a world whose ceiling line is at or above the
ground line (any height ≥ 80, as in the real canvas), a step whose new y
crosses the ground line always transitions to GAME_OVER, and a step whose new
y crosses the ceiling line always stays PLAYING, for any approach velocity. -/
theorem ground_fatal_ceiling_nonfatal (height dt : ℚ) (thr : Bool) (s : Sim)
    (hst : s.game.status = PLAYING) (hgeom : ceilingLine ≤ groundLine height) :
    (heliNewY thr dt s.heliY s.heliVel > groundLine height →
      (updateHelicopter height thr dt s).game.status = GAME_OVER) ∧
    (heliNewY thr dt s.heliY s.heliVel < ceilingLine →
      (updateHelicopter height thr dt s).game.status = PLAYING) := by
  constructor
  · intro hg
    rw [update_ground height thr dt s hst hg]
    rfl
  · intro hc
    have hg : ¬ heliNewY thr dt s.heliY s.heliVel > groundLine height := by
      push_neg
      exact le_of_lt (lt_of_lt_of_le hc hgeom)
    rw [update_ceiling height thr dt s hst hg hc]
    exact hst

/-- Witness for C3: a concrete ground crash ends the run and a concrete
ceiling contact keeps it PLAYING. -/
theorem ground_fatal_ceiling_nonfatal_witness :
    (updateHelicopter 800 false 1 ⟨⟨PLAYING, 0, 0, 0, false⟩, 700, 0⟩).game.status
        = GAME_OVER ∧
      (updateHelicopter 800 true (1/100)
        ⟨⟨PLAYING, 0, 0, 0, false⟩, 15, 0⟩).game.status = PLAYING := by
  constructor
  · exact (ground_fatal_ceiling_nonfatal 800 1 false _ rfl
      (by norm_num [ceilingLine, groundLine, GROUND_HEIGHT, HELICOPTER_HEIGHT])).1
      (by norm_num [heliNewY, heliNewVelocity, groundLine, GRAVITY, THRUST,
        MAX_VELOCITY, GROUND_HEIGHT, HELICOPTER_HEIGHT])
  · exact (ground_fatal_ceiling_nonfatal 800 (1/100) true _ rfl
      (by norm_num [ceilingLine, groundLine, GROUND_HEIGHT, HELICOPTER_HEIGHT])).2
      (by norm_num [heliNewY, heliNewVelocity, ceilingLine, GRAVITY, THRUST,
        MAX_VELOCITY, HELICOPTER_HEIGHT])

/-- C4 (counterexample): there is no positive damping factor under which the
ceiling branch inverts the incoming velocity: for the concrete ceiling hit
with computed velocity −400, the committed velocity is exactly 0. -/
theorem ceiling_bounce_not_damped_inversion :
    ¬ ∃ k : ℚ, 0 < k ∧ ∀ (height dt : ℚ) (thr : Bool) (s : Sim),
      s.game.status = PLAYING →
      ¬ heliNewY thr dt s.heliY s.heliVel > groundLine height →
      heliNewY thr dt s.heliY s.heliVel < ceilingLine →
      (updateHelicopter height thr dt s).heliVel =
        -(k * heliNewVelocity thr dt s.heliVel) := by
  rintro ⟨k, hk, hall⟩
  have h := hall 800 (1/100) true ⟨⟨PLAYING, 0, 0, 0, false⟩, 15, -400⟩ rfl
    (by norm_num [heliNewY, heliNewVelocity, groundLine, GRAVITY, THRUST,
      MAX_VELOCITY, GROUND_HEIGHT, HELICOPTER_HEIGHT])
    (by norm_num [heliNewY, heliNewVelocity, ceilingLine, GRAVITY, THRUST,
      MAX_VELOCITY, HELICOPTER_HEIGHT])
  rw [update_ceiling 800 true (1/100) _ rfl
      (by norm_num [heliNewY, heliNewVelocity, groundLine, GRAVITY, THRUST,
        MAX_VELOCITY, GROUND_HEIGHT, HELICOPTER_HEIGHT])
      (by norm_num [heliNewY, heliNewVelocity, ceilingLine, GRAVITY, THRUST,
        MAX_VELOCITY, HELICOPTER_HEIGHT])] at h
  have hv : heliNewVelocity true (1/100) (-400 : ℚ) = -400 := by
    norm_num [heliNewVelocity, THRUST, MAX_VELOCITY]
  rw [hv] at h
  simp at h
  rw [h] at hk
  exact lt_irrefl 0 hk

/-- C4 (amended): a ceiling-crossing step clamps y to the ceiling line, sets
the velocity to zero (there is no accumulated-acceleration state and no
damped inversion), and leaves the game state untouched (still PLAYING). -/
theorem ceiling_clamps_y_and_zeroes_velocity (height dt : ℚ) (thr : Bool) (s : Sim)
    (hst : s.game.status = PLAYING)
    (hg : ¬ heliNewY thr dt s.heliY s.heliVel > groundLine height)
    (hc : heliNewY thr dt s.heliY s.heliVel < ceilingLine) :
    (updateHelicopter height thr dt s).heliY = ceilingLine ∧
      (updateHelicopter height thr dt s).heliVel = 0 ∧
      (updateHelicopter height thr dt s).game = s.game := by
  rw [update_ceiling height thr dt s hst hg hc]
  exact ⟨rfl, rfl, rfl⟩

/-- Witness for the amended C4 theorem at a concrete ceiling contact. -/
theorem ceiling_clamps_y_and_zeroes_velocity_witness :
    (updateHelicopter 800 true (1/100)
        ⟨⟨PLAYING, 0, 0, 0, false⟩, 15, -400⟩).heliY = ceilingLine ∧
      (updateHelicopter 800 true (1/100)
        ⟨⟨PLAYING, 0, 0, 0, false⟩, 15, -400⟩).heliVel = 0 ∧
      (updateHelicopter 800 true (1/100)
        ⟨⟨PLAYING, 0, 0, 0, false⟩, 15, -400⟩).game = ⟨PLAYING, 0, 0, 0, false⟩ :=
  ceiling_clamps_y_and_zeroes_velocity 800 (1/100) true
    ⟨⟨PLAYING, 0, 0, 0, false⟩, 15, -400⟩ rfl
    (by norm_num [heliNewY, heliNewVelocity, groundLine, GRAVITY, THRUST,
      MAX_VELOCITY, GROUND_HEIGHT, HELICOPTER_HEIGHT])
    (by norm_num [heliNewY, heliNewVelocity, ceilingLine, GRAVITY, THRUST,
      MAX_VELOCITY, HELICOPTER_HEIGHT])

/-- C5: the delta computed by `animate` in `useGameLoop.ts` and delivered to
the simulation callback is the raw timestamp difference: at the failing input
(previous timestamp 0, current timestamp 100000) the callback receives
100000 ms, and no fixed cap bounds the delivered delta at all. -/
theorem animateDelta_not_clamped :
    animateDelta 0 100000 = 100000 ∧
      ∀ cap : ℚ, ∃ prev time : ℚ, cap < animateDelta prev time := by
  constructor
  · norm_num [animateDelta]
  · intro cap
    refine ⟨0, cap + 1, ?_⟩
    simp [animateDelta]

/-- C6 (counterexample): with initial position on the ceiling line and
velocity −400, a single step of delta 1/100 pins both the thrust-held and the
thrust-released run to the ceiling, so the net displacements are equal and
the thrust-held displacement is not strictly smaller. -/
theorem thrust_displacement_not_strict_at_ceiling :
    ¬ ((runConst 800 true [1/100] ⟨⟨PLAYING, 0, 0, 0, false⟩, 15, -400⟩).heliY -
          (Sim.mk ⟨PLAYING, 0, 0, 0, false⟩ 15 (-400)).heliY <
        (runConst 800 false [1/100] ⟨⟨PLAYING, 0, 0, 0, false⟩, 15, -400⟩).heliY -
          (Sim.mk ⟨PLAYING, 0, 0, 0, false⟩ 15 (-400)).heliY) := by
  have ht : (runConst 800 true [1/100]
      ⟨⟨PLAYING, 0, 0, 0, false⟩, 15, -400⟩).heliY = 15 := by
    norm_num [runConst, updateHelicopter, heliNewVelocity, heliNewY, groundLine,
      ceilingLine, GRAVITY, THRUST, MAX_VELOCITY, GROUND_HEIGHT, HELICOPTER_HEIGHT]
  have hr : (runConst 800 false [1/100]
      ⟨⟨PLAYING, 0, 0, 0, false⟩, 15, -400⟩).heliY = 15 := by
    norm_num [runConst, updateHelicopter, heliNewVelocity, heliNewY, groundLine,
      ceilingLine, GRAVITY, THRUST, MAX_VELOCITY, GROUND_HEIGHT, HELICOPTER_HEIGHT]
  rw [ht, hr]
  simp

/-- C6 (amended): over a nonempty sequence of positive deltas during which
both runs stay in the interior of the vertical band, starting PLAYING from a
velocity within `[-MAX_VELOCITY, MAX_VELOCITY]`, integrating with thrust held
produces a strictly smaller (more upward) net vertical displacement than
integrating the same deltas with thrust released. -/
theorem thrust_strictly_higher_in_interior (height : ℚ) (ds : List ℚ) (s : Sim)
    (hne : ds ≠ []) (hpos : ∀ d ∈ ds, 0 < d) (hst : s.game.status = PLAYING)
    (hb1 : -MAX_VELOCITY ≤ s.heliVel) (hb2 : s.heliVel ≤ MAX_VELOCITY)
    (hit : interiorRun height true ds s) (hir : interiorRun height false ds s) :
    (runConst height true ds s).heliY - s.heliY <
      (runConst height false ds s).heliY - s.heliY := by
  rw [sub_lt_sub_iff_right]
  cases ds with
  | nil => exact absurd rfl hne
  | cons d ds =>
      obtain ⟨hit1, hits⟩ := hit
      obtain ⟨hir1, hirs⟩ := hir
      have hd : 0 < d := hpos d (List.mem_cons_self _ _)
      have hgt : ¬ heliNewY true d s.heliY s.heliVel > groundLine height :=
        not_lt.mpr hit1.1
      have hct : ¬ heliNewY true d s.heliY s.heliVel < ceilingLine :=
        not_lt.mpr hit1.2
      have hgr : ¬ heliNewY false d s.heliY s.heliVel > groundLine height :=
        not_lt.mpr hir1.1
      have hcr : ¬ heliNewY false d s.heliY s.heliVel < ceilingLine :=
        not_lt.mpr hir1.2
      have et := update_interior height true d s hst hgt hct
      have er := update_interior height false d s hst hgr hcr
      have hv' : heliNewVelocity true d s.heliVel < heliNewVelocity false d s.heliVel :=
        clamp_strict d hd _ _ le_rfl hb2 hb1
      have hy' : heliNewY true d s.heliY s.heliVel <
          heliNewY false d s.heliY s.heliVel := by
        have hm := mul_lt_mul_of_pos_right hv' hd
        unfold heliNewY
        linarith
      exact runConst_strict_aux height ds
        (updateHelicopter height true d s) (updateHelicopter height false d s)
        (fun q hq => hpos q (List.mem_cons_of_mem _ hq))
        (by rw [et]; exact hst) (by rw [er]; exact hst)
        (by rw [et, er]; exact hv') (by rw [et, er]; exact hy')
        (by rw [et]; exact (clamp_bounds true d s.heliVel).2)
        (by rw [er]; exact (clamp_bounds false d s.heliVel).1)
        hits hirs

/-- Witness for the amended C6 theorem at a concrete one-step interior run. -/
theorem thrust_strictly_higher_in_interior_witness :
    (runConst 800 true [1/10] ⟨⟨PLAYING, 0, 0, 0, false⟩, 400, 0⟩).heliY -
        (Sim.mk ⟨PLAYING, 0, 0, 0, false⟩ 400 0).heliY <
      (runConst 800 false [1/10] ⟨⟨PLAYING, 0, 0, 0, false⟩, 400, 0⟩).heliY -
        (Sim.mk ⟨PLAYING, 0, 0, 0, false⟩ 400 0).heliY :=
  thrust_strictly_higher_in_interior 800 [1/10] ⟨⟨PLAYING, 0, 0, 0, false⟩, 400, 0⟩
    (by simp) (by norm_num) rfl (by norm_num [MAX_VELOCITY]) (by norm_num [MAX_VELOCITY])
    (by norm_num [interiorRun, interiorStep, heliNewY, heliNewVelocity, groundLine,
      ceilingLine, GRAVITY, THRUST, MAX_VELOCITY, GROUND_HEIGHT, HELICOPTER_HEIGHT])
    (by norm_num [interiorRun, interiorStep, heliNewY, heliNewVelocity, groundLine,
      ceilingLine, GRAVITY, THRUST, MAX_VELOCITY, GROUND_HEIGHT, HELICOPTER_HEIGHT])

/-- C7: no branch of the `useGameLoop` callback ever changes the score: in
particular a PLAYING tick that advances the scroll leaves the score exactly
as it was, contradicting the specified +1 per distance unit of forward
scroll (`incrementScore` is defined but never invoked by the loop). -/
theorem gameTick_never_increments_score (height : ℚ) (thr : Bool) (dt : ℚ)
    (t : TickState) :
    (gameTick height thr dt t).sim.game.score = t.sim.game.score :=
  gameTick_score_eq height thr dt t

/-- C8: a ground-impact step signals the terminal transition through
`endGame` without committing the out-of-bounds position: the helicopter's
position and velocity are left exactly as they were before the step. -/
theorem ground_impact_preserves_position_velocity (height dt : ℚ) (thr : Bool)
    (s : Sim) (hst : s.game.status = PLAYING)
    (hg : heliNewY thr dt s.heliY s.heliVel > groundLine height) :
    (updateHelicopter height thr dt s).heliY = s.heliY ∧
      (updateHelicopter height thr dt s).heliVel = s.heliVel ∧
      (updateHelicopter height thr dt s).game.status = GAME_OVER := by
  rw [update_ground height thr dt s hst hg]
  exact ⟨rfl, rfl, rfl⟩

/-- Witness for C8 at a concrete ground impact. -/
theorem ground_impact_preserves_position_velocity_witness :
    (updateHelicopter 800 false 1 ⟨⟨PLAYING, 0, 0, 0, false⟩, 700, 123⟩).heliY = 700 ∧
      (updateHelicopter 800 false 1
        ⟨⟨PLAYING, 0, 0, 0, false⟩, 700, 123⟩).heliVel = 123 ∧
      (updateHelicopter 800 false 1
        ⟨⟨PLAYING, 0, 0, 0, false⟩, 700, 123⟩).game.status = GAME_OVER :=
  ground_impact_preserves_position_velocity 800 1 false
    ⟨⟨PLAYING, 0, 0, 0, false⟩, 700, 123⟩ rfl
    (by norm_num [heliNewY, heliNewVelocity, groundLine, GRAVITY, THRUST,
      MAX_VELOCITY, GROUND_HEIGHT, HELICOPTER_HEIGHT])

/-- C9: `startGame` resets the score to exactly 0 on the START→PLAYING
transition, and no operation reachable while PLAYING (`incrementScore`,
`endGame`, or a whole game-loop tick) ever decreases the score. -/
theorem score_resets_on_start_and_monotone (s : GameState) :
    (startGame s).score = 0 ∧ (startGame s).status = PLAYING ∧
      s.score ≤ (incrementScore s).score ∧ s.score ≤ (endGame s).score ∧
      ∀ (height : ℚ) (thr : Bool) (dt : ℚ) (t : TickState),
        t.sim.game.score ≤ (gameTick height thr dt t).sim.game.score := by
  refine ⟨rfl, rfl, Nat.le_succ _, le_rfl, ?_⟩
  intro height thr dt t
  exact (gameTick_score_eq height thr dt t).ge

/-- C10: bestScore is monotonically non-decreasing across every operation of
the game state: `startGame`, `endGame`, `restartGame` and `incrementScore`
all yield a bestScore at least the one before. -/
theorem bestScore_monotone_all_ops (s : GameState) :
    s.bestScore ≤ (startGame s).bestScore ∧ s.bestScore ≤ (endGame s).bestScore ∧
      s.bestScore ≤ (restartGame s).bestScore ∧
      s.bestScore ≤ (incrementScore s).bestScore := by
  refine ⟨le_rfl, ?_, le_rfl, le_rfl⟩
  unfold endGame
  dsimp only
  split <;> omega

end FlapShift
